import Mathlib

/-!
Verification of the coordinated cron scheduler of the treadmill repository
(`treadmill/sproc/cron.py`) against its natural-language specification.

The sequential behaviour of `run` and `_do_watch` is embedded as a trace of
coordination-service operations; the components that live outside the
`sproc/cron.py` module (the lease, the scheduler core and the fire-time
index) are modelled from the specification, as marked on each definition.
-/

namespace Treadmill.Cron

/-- Operations `run` and `_do_watch` issue against the coordination service
(ZooKeeper client), the logger and the event loop, in program order.
Embedded from `treadmill/sproc/cron.py`. -/
inductive ZkOp where
  /-- Operation `zkclient.ensure_path(path)`: create `path` if it does not exist. -/
  | ensurePath (path : String)
  /-- Operation `zkutils.make_lock(zkclient, path)`: construct the election lock object. -/
  | makeLock (path : String)
  /-- Operation `_LOGGER.info(msg)`. -/
  | logInfo (msg : String)
  /-- Entering `with lock:`: block until the leader lock is acquired. -/
  | acquireLock (path : String)
  /-- Leaving `with lock:`: release the leader lock. -/
  | releaseLock (path : String)
  /-- Operation `cron.get_scheduler(zkclient)`: obtain the scheduler core. -/
  | getScheduler
  /-- Operation `zkclient.ChildrenWatch(path)`: register the children watch on `path`. -/
  | childrenWatch (path : String)
  /-- Operation `reactor.run()`: enter the event loop. -/
  | reactorRun
  deriving DecidableEq, Repr

/-- Path constant `z.CRON_JOBS` of the cron job collection. -/
def CRON_JOBS : String := "/cron-jobs"

/-- Path constant `z.path.election(__name__)` of the leader election lock. -/
def election_path : String := "/election/treadmill.sproc.cron"

/-- Operations issued by `_do_watch(zkclient)` (lines 25-36 of
`treadmill/sproc/cron.py`): obtain the scheduler, then register one
children watch on the cron job collection. -/
def do_watch_ops : List ZkOp :=
  [ZkOp.getScheduler, ZkOp.childrenWatch CRON_JOBS]

/-- Operations issued by `run(no_lock)` (lines 45-60 of
`treadmill/sproc/cron.py`), in program order.  `reactor.run()` runs the
event loop until `reactor.stop()` is called; no code in this program calls
`reactor.stop()`, so `reactor.run()` is the final operation of the trace
and the `with lock:` exit (lock release) is never reached. -/
def run_ops (no_lock : Bool) : List ZkOp :=
  ZkOp.ensurePath CRON_JOBS ::
    (if no_lock then
      do_watch_ops ++ [ZkOp.reactorRun]
    else
      ZkOp.makeLock election_path ::
      ZkOp.logInfo "Waiting for leader lock." ::
      ZkOp.acquireLock election_path ::
      do_watch_ops ++ [ZkOp.reactorRun])

/-- Effects performed by one invocation of the `_new_cron_jobs` children
watch callback (lines 31-36 of `treadmill/sproc/cron.py`): log a message,
then call `scheduler.wakeup()`.  The children argument is ignored by the
source (it is named `_children`). -/
inductive CallbackEffect where
  | logInfo (msg : String)
  | wakeup
  deriving DecidableEq, Repr

/-- Effect trace of `_new_cron_jobs(_children)`, embedded from the source:
the body does not inspect `_children`. -/
def new_cron_jobs (_children : List String) : List CallbackEffect :=
  [CallbackEffect.logInfo "Waking up the job scheduler, as children have changed",
   CallbackEffect.wakeup]

/-- Is the leader lock held after executing a prefix of the operation
trace?  `acquireLock` takes it, `releaseLock` drops it; nothing else
touches it. -/
def lockHeldAfter (ops : List ZkOp) : Bool :=
  ops.foldl
    (fun held op =>
      match op with
      | ZkOp.acquireLock _ => true
      | ZkOp.releaseLock _ => false
      | _ => held)
    false

/-- Has `_do_watch` registered the children watch after executing a prefix
of the operation trace? -/
def watchRegisteredAfter (ops : List ZkOp) : Bool :=
  ops.any (fun op =>
    match op with
    | ZkOp.childrenWatch _ => true
    | _ => false)

/-- State of the coordination store: the set of existing node paths, and
the contents of the cron job registry (job id paired with its definition
record). -/
structure ZkState where
  nodes : List String
  registry : List (String × String)
  deriving DecidableEq, Repr

/-- Effect of one traced operation on the coordination store.
`ensure_path` creates the named path if missing and never touches the
children below it; lock operations act on the election lock node only;
watch registration, scheduler lookup, logging and the event loop read but
never write. -/
def applyZkOp (s : ZkState) (op : ZkOp) : ZkState :=
  match op with
  | ZkOp.ensurePath p =>
      if p ∈ s.nodes then s else { s with nodes := p :: s.nodes }
  | _ => s

/-- Store state reached from `s` after executing the whole trace `ops`. -/
def runStore (s : ZkState) (ops : List ZkOp) : ZkState :=
  ops.foldl applyZkOp s

/-- Effect of one callback effect on the coordination store: logging and
the in-process scheduler wakeup write nothing to the store. -/
def applyCallbackEffect (s : ZkState) (_e : CallbackEffect) : ZkState := s

/-- Outcome of one invocation of the body of the `_new_cron_jobs` callback:
the body logs and then calls `scheduler.wakeup()`, whose outcome
(`Except.ok` or an unhandled exception with a message) is the outcome of the body.  Embedded from lines 31-36 of `treadmill/sproc/cron.py`. -/
def new_cron_jobs_body (wakeupResult : Except String Unit)
    (_children : List String) : Except String Unit :=
  wakeupResult

/-- Behaviour of the `exc.exit_on_unhandled` decorator applied to the
callback at line 29 of `treadmill/sproc/cron.py`.  The module
`treadmill/exc.py` is not under `src/`; the decorator is modelled from its
name and its role at the call site: it runs the wrapped callback and, when
the callback raises an unhandled exception, terminates the process.  The
returned boolean records whether the process exited. -/
def exit_on_unhandled (body : Except String Unit) : Bool :=
  match body with
  | Except.ok _ => false
  | Except.error _ => true

/-- Whether the process exits after one delivery of a children
notification: the decorated `_new_cron_jobs` callback runs its body under
`exc.exit_on_unhandled`. -/
def new_cron_jobs_decorated (wakeupResult : Except String Unit)
    (children : List String) : Bool :=
  exit_on_unhandled (new_cron_jobs_body wakeupResult children)

/-! ### Leader election across replicas

`zkutils.make_lock` and the lease semantics live outside `src/`; they are
modelled from the specification. -/

/-- Modelled from the spec: role of one scheduler replica in the
LeaderElector state machine `Following → Acquiring → Leading → Following`.
-/
inductive Role where
  | following
  | acquiring
  | leading
  deriving DecidableEq, Repr

/-- Modelled from the spec: cluster-wide coordination state — the Lease
(`owned by at most one process at a time`) holding the id of its owner, if
any, and the election role of every replica. -/
structure Cluster where
  lease : Option Nat
  role : Nat → Role

/-- Modelled from the spec: events of the simulated coordination service —
a replica starts waiting for the Lease, the service grants the Lease to a
waiting replica when it is free, the owner releases it, or the session of the owner
expires (crash, partition).  Loss of the Lease returns the owner
to `Following`. -/
inductive ClusterEvent where
  | tryAcquire (p : Nat)
  | grant (p : Nat)
  | release (p : Nat)
  | expire (p : Nat)
  deriving DecidableEq, Repr

/-- Modelled from the spec: one step of the simulated coordination
service.  The Lease is granted only when free, and only its owner can
release it or lose it by session expiry. -/
def clusterStep (s : Cluster) (e : ClusterEvent) : Cluster :=
  match e with
  | ClusterEvent.tryAcquire p =>
      if s.role p = Role.following then
        { s with role := Function.update s.role p Role.acquiring }
      else s
  | ClusterEvent.grant p =>
      if s.lease = none ∧ s.role p = Role.acquiring then
        { lease := some p, role := Function.update s.role p Role.leading }
      else s
  | ClusterEvent.release p | ClusterEvent.expire p =>
      if s.lease = some p then
        { lease := none, role := Function.update s.role p Role.following }
      else s

/-- Initial cluster state: the Lease is free and every replica follows. -/
def clusterInit : Cluster :=
  { lease := none, role := fun _ => Role.following }

/-- Cluster state after an interleaving of coordination events. -/
def clusterRun (es : List ClusterEvent) : Cluster :=
  es.foldl clusterStep clusterInit

/-! ### The leading-tenure scheduling loop

The teardown-on-loss mechanics run inside `reactor.run()` and the lease
machinery, outside `src/`; they are modelled from the specification. -/

/-- Modelled from the spec: state of the scheduling loop of the leader — the
children watch and the scheduler core are running while leading;
`dispatched` records every action dispatch call made (job id and fire
timestamp, most recent first); `lost` records that leadership loss has
been observed. -/
structure LoopState where
  watchActive : Bool
  schedulerActive : Bool
  lost : Bool
  dispatched : List (String × Nat)
  deriving DecidableEq, Repr

/-- Loop state on entering the Leading state: watch and scheduler are
started, nothing dispatched yet. -/
def loopInit : LoopState :=
  { watchActive := true, schedulerActive := true, lost := false, dispatched := [] }

/-- Modelled from the spec: events the leading loop reacts to — a deadline
expiry dispatching a job at time `t`, a registry-change notification, or
observation at instant `t` of leadership loss (also delivered while the
loop is suspended waiting on a deadline). -/
inductive LoopEvent where
  | deadline (job : String) (t : Nat)
  | notify
  | lose (t : Nat)
  deriving DecidableEq, Repr

/-- Modelled from the spec: one step of the leading loop.  A deadline
dispatches its job only while the scheduler is running; a notification
wakes the scheduler (no dispatch); observing leadership loss tears down
the children watch and the scheduler unconditionally and immediately. -/
def loopStep (s : LoopState) (e : LoopEvent) : LoopState :=
  match e with
  | LoopEvent.deadline j t =>
      if s.schedulerActive then { s with dispatched := (j, t) :: s.dispatched } else s
  | LoopEvent.notify => s
  | LoopEvent.lose _ =>
      { s with watchActive := false, schedulerActive := false, lost := true }

/-- Loop state after a sequence of events of one leading tenure. -/
def loopRun (es : List LoopEvent) : LoopState :=
  es.foldl loopStep loopInit

/-! ### Scheduler core: fire-time index and dispatch order

`cron.get_scheduler` (module `treadmill/cron.py`) is not under `src/`;
the fire-time index and the dispatch loop are modelled from the
specification. -/

/-- Modelled from the spec: a cron job record as read from the registry —
unique id, schedule expression, enabled flag.  Action and target do not
influence indexing and are kept opaque. -/
structure CronJob where
  id : String
  schedule : String
  enabled : Bool
  deriving DecidableEq, Repr

/-- Modelled from the spec: the fire-time index entry a single job
contributes on rebuild — an enabled job with a well-formed schedule
contributes its next fire timestamp paired with its id; a disabled or
malformed job contributes nothing.  `ev` is the schedule evaluator (the
cron expression grammar is outside the scope of the spec): it yields the
single next fire timestamp, or `none` when the schedule is malformed. -/
def indexEntry (ev : String → Option Nat) (j : CronJob) : Option (Nat × String) :=
  if j.enabled then (ev j.schedule).map (fun t => (t, j.id)) else none

/-- Modelled from the spec: full rebuild of the fire-time index from the
registry contents.  A malformed job is skipped without aborting the
rebuild. -/
def rebuild (ev : String → Option Nat) (jobs : List CronJob) : List (Nat × String) :=
  jobs.filterMap (indexEntry ev)

/-- Modelled from the spec: the dispatch precedence of fire-time index
entries — ascending fire timestamp, ties broken by ascending job id (ids
compared lexicographically on their character sequence). -/
def fireLe (a b : Nat × String) : Prop :=
  a.1 < b.1 ∨ (a.1 = b.1 ∧ a.2.data ≤ b.2.data)

instance : DecidableRel fireLe := fun a b =>
  inferInstanceAs (Decidable (a.1 < b.1 ∨ (a.1 = b.1 ∧ a.2.data ≤ b.2.data)))

instance : IsTotal (Nat × String) fireLe where
  total a b := by
    rcases Nat.lt_trichotomy a.1 b.1 with h | h | h
    · exact Or.inl (Or.inl h)
    · rcases le_total a.2.data b.2.data with h2 | h2
      · exact Or.inl (Or.inr ⟨h, h2⟩)
      · exact Or.inr (Or.inr ⟨h.symm, h2⟩)
    · exact Or.inr (Or.inl h)

instance : IsTrans (Nat × String) fireLe where
  trans a b c hab hbc := by
    rcases hab with h1 | ⟨h1, h1'⟩ <;> rcases hbc with h2 | ⟨h2, h2'⟩
    · exact Or.inl (h1.trans h2)
    · exact Or.inl (h2 ▸ h1)
    · exact Or.inl (h1 ▸ h2)
    · exact Or.inr ⟨h1.trans h2, h1'.trans h2'⟩

/-- Modelled from the spec: on waking due to deadline expiry, the loop
pops every index entry whose timestamp is at most `now` and hands them to
the dispatcher in dispatch precedence order (timestamp, then job id). -/
def dispatchOrder (index : List (Nat × String)) (now : Nat) : List (Nat × String) :=
  (index.filter (fun e => e.1 ≤ now)).insertionSort fireLe

/-- Sample schedule evaluator used to instantiate general theorems:
`"bad"` is malformed, every other schedule fires next at its length. -/
def sampleEv : String → Option Nat :=
  fun s => if s = "bad" then none else some s.length

/-- Sample registry contents used to instantiate general theorems. -/
def sampleJobs : List CronJob :=
  [{ id := "a", schedule := "h1", enabled := true },
   { id := "b", schedule := "bad", enabled := true },
   { id := "c", schedule := "h2", enabled := false }]

/-! ### Theorems -/

theorem loopStep_frozen (s : LoopState) (e : LoopEvent)
    (hw : s.watchActive = false) (hs : s.schedulerActive = false)
    (hl : s.lost = true) : loopStep s e = s := by
  cases e with
  | deadline j t => simp [loopStep, hs]
  | notify => rfl
  | lose t => cases s; simp_all [loopStep]

theorem foldl_loopStep_frozen (s : LoopState) (es : List LoopEvent)
    (hw : s.watchActive = false) (hs : s.schedulerActive = false)
    (hl : s.lost = true) : es.foldl loopStep s = s := by
  induction es with
  | nil => rfl
  | cons e es ih => rw [List.foldl_cons, loopStep_frozen s e hw hs hl]; exact ih

/-- C1: with election, losing the leader lock terminates the scheduling
loop unconditionally — whatever events follow the observation of loss
(deadlines that were pending while suspended included), the loop state is
frozen at the loss point, the children watch and the scheduler are
stopped, and the dispatch log is exactly the log from before the loss: no
action dispatch call is made after loss is observed. -/
theorem C1_loss_terminates_loop (pre post : List LoopEvent) (t : Nat) :
    loopRun (pre ++ LoopEvent.lose t :: post) = loopRun (pre ++ [LoopEvent.lose t]) ∧
    (loopRun (pre ++ LoopEvent.lose t :: post)).watchActive = false ∧
    (loopRun (pre ++ LoopEvent.lose t :: post)).schedulerActive = false ∧
    (loopRun (pre ++ LoopEvent.lose t :: post)).dispatched = (loopRun pre).dispatched := by
  have h1 : loopRun (pre ++ [LoopEvent.lose t]) = loopStep (loopRun pre) (LoopEvent.lose t) := by
    simp [loopRun, List.foldl_append]
  have h2 : loopRun (pre ++ LoopEvent.lose t :: post) =
      post.foldl loopStep (loopStep (loopRun pre) (LoopEvent.lose t)) := by
    simp [loopRun, List.foldl_append]
  have key : loopRun (pre ++ LoopEvent.lose t :: post) = loopRun (pre ++ [LoopEvent.lose t]) := by
    rw [h1, h2]
    exact foldl_loopStep_frozen _ post rfl rfl rfl
  refine ⟨key, ?_, ?_, ?_⟩ <;> rw [key, h1] <;> rfl

/-- C2 counterexample: it is false that every error raised inside the
children-watch callback leaves the process running — the callback is
wrapped in `exc.exit_on_unhandled`, so an unhandled error in it (here a
failing `scheduler.wakeup()`) terminates the process. -/
theorem C2_counterexample :
    ¬ ∀ (w : Except String Unit) (children : List String),
        new_cron_jobs_decorated w children = false := by
  intro h
  have hx := h (Except.error "zookeeper connection lost") []
  simp [new_cron_jobs_decorated, new_cron_jobs_body, exit_on_unhandled] at hx

/-- C2 (amended): an error raised inside the children-watch callback is
not recovered locally — the decorated callback exits the process exactly
when its body raises an unhandled error, and keeps the process alive
exactly when the body succeeds. -/
theorem C2_callback_error_exits (w : Except String Unit) (children : List String) :
    new_cron_jobs_decorated w children = true ↔ ∃ m, w = Except.error m := by
  cases w <;> simp [new_cron_jobs_decorated, new_cron_jobs_body, exit_on_unhandled]

/-- C3: with election (`no_lock` false), in every reachable state of
`run` — every prefix of its operation trace — if the children watch has
been registered then the leader lock is held. -/
theorem C3_watch_only_while_locked (n : Nat)
    (h : watchRegisteredAfter ((run_ops false).take n) = true) :
    lockHeldAfter ((run_ops false).take n) = true := by
  rcases Nat.lt_or_ge n 7 with hn | hn
  · interval_cases n <;> revert h <;> decide
  · rw [List.take_of_length_le (le_trans (by decide) hn)] at h ⊢
    decide

theorem C3_watch_only_while_locked_witness :
    watchRegisteredAfter ((run_ops false).take 6) = true ∧
      lockHeldAfter ((run_ops false).take 6) = true :=
  ⟨by decide, C3_watch_only_while_locked 6 (by decide)⟩

/-- C4: with the no-lock flag set, `run` skips election entirely — its
trace is exactly: ensure the job collection path, obtain the scheduler,
register the children watch, enter the event loop; it contains no lock
creation and no lock acquisition. -/
theorem C4_no_lock_skips_election :
    run_ops true = [ZkOp.ensurePath CRON_JOBS, ZkOp.getScheduler,
      ZkOp.childrenWatch CRON_JOBS, ZkOp.reactorRun] ∧
    ∀ p, ZkOp.makeLock p ∉ run_ops true ∧ ZkOp.acquireLock p ∉ run_ops true := by
  refine ⟨rfl, fun p => ⟨?_, ?_⟩⟩ <;> simp [run_ops, do_watch_ops]

/-- C5: `_do_watch` registers exactly one children-watch subscription, and
it is on the cron-jobs collection; every notification makes the callback
perform exactly one scheduler wakeup; and the behaviour of the callback is
independent of the children list it receives. -/
theorem C5_one_subscription_one_wakeup :
    (do_watch_ops.count (ZkOp.childrenWatch CRON_JOBS) = 1 ∧
      do_watch_ops.countP
        (fun op => match op with | ZkOp.childrenWatch _ => true | _ => false) = 1) ∧
    (∀ children, (new_cron_jobs children).count CallbackEffect.wakeup = 1) ∧
    (∀ c₁ c₂ : List String, new_cron_jobs c₁ = new_cron_jobs c₂) :=
  ⟨⟨by decide, by decide⟩, fun _ => rfl, fun _ _ => rfl⟩

/-- C6: the scheduler core never mutates the job registry — executing the
whole `run` trace (either mode) from any store state leaves the registry
contents unchanged, and so does every invocation of the watch callback. -/
theorem C6_registry_read_only :
    (∀ (b : Bool) (s : ZkState), (runStore s (run_ops b)).registry = s.registry) ∧
    (∀ (s : ZkState) (children : List String),
      (new_cron_jobs children).foldl applyCallbackEffect s = s) := by
  constructor
  · intro b s
    cases b <;>
      simp only [runStore, run_ops, do_watch_ops, if_true, if_false,
        List.cons_append, List.nil_append, List.foldl_cons, List.foldl_nil,
        applyZkOp] <;>
      split <;> rfl
  · intro s children; rfl

/-- C10: in both modes, `run` creates the cron-jobs collection path before
waiting for the lock and before registering the children watch — starting
from a fresh, empty coordination store, at the moment the watch
registration (resp. the lock acquisition) executes, the cron-jobs path
already exists. -/
theorem C10_path_created_before_watch (b : Bool) (n : Nat) :
    (((run_ops b).drop n).head? = some (ZkOp.childrenWatch CRON_JOBS) →
      CRON_JOBS ∈ (runStore ⟨[], []⟩ ((run_ops b).take n)).nodes) ∧
    (((run_ops b).drop n).head? = some (ZkOp.acquireLock election_path) →
      CRON_JOBS ∈ (runStore ⟨[], []⟩ ((run_ops b).take n)).nodes) := by
  cases b <;> rcases Nat.lt_or_ge n 7 with hn | hn
  · interval_cases n <;> exact ⟨fun h => by revert h; decide, fun h => by revert h; decide⟩
  · rw [List.drop_eq_nil_of_le (le_trans (by decide) hn)]
    exact ⟨fun h => by simp at h, fun h => by simp at h⟩
  · interval_cases n <;> exact ⟨fun h => by revert h; decide, fun h => by revert h; decide⟩
  · rw [List.drop_eq_nil_of_le (le_trans (by decide) hn)]
    exact ⟨fun h => by simp at h, fun h => by simp at h⟩

theorem C10_path_created_before_watch_witness :
    ((run_ops false).drop 5).head? = some (ZkOp.childrenWatch CRON_JOBS) ∧
      CRON_JOBS ∈ (runStore ⟨[], []⟩ ((run_ops false).take 5)).nodes :=
  ⟨by decide, (C10_path_created_before_watch false 5).1 (by decide)⟩

/-- A replica is in the `Leading` role only if it owns the Lease. -/
def LeaderInv (s : Cluster) : Prop :=
  ∀ p, s.role p = Role.leading → s.lease = some p

theorem leaderInv_init : LeaderInv clusterInit := by
  intro p h
  simp [clusterInit] at h

theorem leaderInv_step (s : Cluster) (e : ClusterEvent) (h : LeaderInv s) :
    LeaderInv (clusterStep s e) := by
  cases e with
  | tryAcquire q =>
      intro p hp
      by_cases hq : s.role q = Role.following
      · rw [clusterStep, if_pos hq] at hp ⊢
        dsimp only at hp ⊢
        rcases eq_or_ne p q with rfl | hne
        · rw [Function.update_same] at hp
          exact absurd hp (by simp)
        · rw [Function.update_noteq hne] at hp
          exact h p hp
      · rw [clusterStep, if_neg hq] at hp ⊢
        exact h p hp
  | grant q =>
      intro p hp
      by_cases hq : s.lease = none ∧ s.role q = Role.acquiring
      · rw [clusterStep, if_pos hq] at hp ⊢
        dsimp only at hp ⊢
        rcases eq_or_ne p q with rfl | hne
        · rfl
        · rw [Function.update_noteq hne] at hp
          have h2 := h p hp
          rw [hq.1] at h2
          exact absurd h2 (by simp)
      · rw [clusterStep, if_neg hq] at hp ⊢
        exact h p hp
  | release q =>
      intro p hp
      by_cases hq : s.lease = some q
      · rw [clusterStep, if_pos hq] at hp ⊢
        dsimp only at hp ⊢
        rcases eq_or_ne p q with rfl | hne
        · rw [Function.update_same] at hp
          exact absurd hp (by simp)
        · rw [Function.update_noteq hne] at hp
          have h2 := h p hp
          rw [hq] at h2
          exact absurd (Option.some_injective _ h2).symm hne
      · rw [clusterStep, if_neg hq] at hp ⊢
        exact h p hp
  | expire q =>
      intro p hp
      by_cases hq : s.lease = some q
      · rw [clusterStep, if_pos hq] at hp ⊢
        dsimp only at hp ⊢
        rcases eq_or_ne p q with rfl | hne
        · rw [Function.update_same] at hp
          exact absurd hp (by simp)
        · rw [Function.update_noteq hne] at hp
          have h2 := h p hp
          rw [hq] at h2
          exact absurd (Option.some_injective _ h2).symm hne
      · rw [clusterStep, if_neg hq] at hp ⊢
        exact h p hp

theorem leaderInv_foldl (s : Cluster) (es : List ClusterEvent) (h : LeaderInv s) :
    LeaderInv (es.foldl clusterStep s) := by
  induction es generalizing s with
  | nil => exact h
  | cons e es ih => exact ih _ (leaderInv_step s e h)

theorem leaderInv_run (es : List ClusterEvent) : LeaderInv (clusterRun es) :=
  leaderInv_foldl clusterInit es leaderInv_init

/-- C7: at most one replica cluster-wide is in the `Leading` state at any
instant — after every interleaving of acquisition attempts, grants,
releases and session expiries, any two replicas in the `Leading` role are
the same replica. -/
theorem C7_at_most_one_leader (es : List ClusterEvent) (p q : Nat)
    (hp : (clusterRun es).role p = Role.leading)
    (hq : (clusterRun es).role q = Role.leading) : p = q := by
  have h1 := leaderInv_run es p hp
  have h2 := leaderInv_run es q hq
  rw [h1] at h2
  exact Option.some_injective _ h2

theorem C7_at_most_one_leader_witness :
    (clusterRun [ClusterEvent.tryAcquire 0, ClusterEvent.grant 0]).role 0 = Role.leading ∧
      (0 : Nat) = 0 :=
  ⟨by decide,
    C7_at_most_one_leader [ClusterEvent.tryAcquire 0, ClusterEvent.grant 0] 0 0
      (by decide) (by decide)⟩

theorem indexEntry_isSome (ev : String → Option Nat) (j : CronJob) :
    (indexEntry ev j).isSome = (j.enabled && (ev j.schedule).isSome) := by
  unfold indexEntry
  cases hen : j.enabled <;> cases hev : ev j.schedule <;> simp

theorem indexEntry_snd (ev : String → Option Nat) (j : CronJob) (e : Nat × String)
    (h : indexEntry ev j = some e) : e.2 = j.id := by
  unfold indexEntry at h
  cases hen : j.enabled <;> rw [hen] at h <;> simp at h
  rcases h with ⟨t, -, rfl⟩
  rfl

theorem rebuild_snd_sublist (ev : String → Option Nat) (jobs : List CronJob) :
    List.Sublist ((rebuild ev jobs).map Prod.snd) (jobs.map CronJob.id) := by
  induction jobs with
  | nil => simp [rebuild]
  | cons j rest ih =>
      simp only [rebuild, List.filterMap_cons, List.map_cons]
      cases hj : indexEntry ev j with
      | none => exact ih.cons _
      | some e =>
          rw [List.map_cons, indexEntry_snd ev j e hj]
          exact ih.cons₂ _

theorem rebuild_countP_eq_zero (ev : String → Option Nat) (jobs : List CronJob)
    (x : String) (hx : x ∉ jobs.map CronJob.id) :
    (rebuild ev jobs).countP (fun e => e.2 == x) = 0 := by
  rw [List.countP_eq_zero]
  intro e he
  rw [rebuild, List.mem_filterMap] at he
  rcases he with ⟨j, hj, hje⟩
  have hid : e.2 = j.id := indexEntry_snd ev j e hje
  simp only [beq_iff_eq, hid]
  intro hcontra
  exact hx (hcontra ▸ List.mem_map_of_mem CronJob.id hj)

theorem rebuild_countP (ev : String → Option Nat) (jobs : List CronJob) (j : CronJob)
    (hnd : (jobs.map CronJob.id).Nodup) (hj : j ∈ jobs) :
    (rebuild ev jobs).countP (fun e => e.2 == j.id) =
      if j.enabled && (ev j.schedule).isSome then 1 else 0 := by
  induction jobs with
  | nil => cases hj
  | cons k rest ih =>
      rw [List.map_cons, List.nodup_cons] at hnd
      rcases hnd with ⟨hknotin, hnd'⟩
      simp only [rebuild, List.filterMap_cons]
      rcases List.mem_cons.mp hj with rfl | hjrest
      · have hz := rebuild_countP_eq_zero ev rest j.id hknotin
        simp only [rebuild] at hz
        cases hk : indexEntry ev j with
        | none =>
            have hfalse : (j.enabled && (ev j.schedule).isSome) = false := by
              have hs := indexEntry_isSome ev j
              rw [hk] at hs
              exact hs.symm
            rw [hfalse, if_neg (by simp)]
            exact hz
        | some e =>
            have htrue : (j.enabled && (ev j.schedule).isSome) = true := by
              have hs := indexEntry_isSome ev j
              rw [hk] at hs
              exact hs.symm
            have hbeq : (e.2 == j.id) = true := by
              simp [indexEntry_snd ev j e hk]
            rw [List.countP_cons]
            simp [hbeq, htrue, hz]
      · have hne : k.id ≠ j.id := by
          intro hcontra
          exact hknotin (hcontra ▸ List.mem_map_of_mem CronJob.id hjrest)
        have ihr := ih hnd' hjrest
        simp only [rebuild] at ihr
        cases hk : indexEntry ev k with
        | none => exact ihr
        | some e =>
            have hbeq : (e.2 == j.id) = false := by
              rw [indexEntry_snd ev k e hk]
              simp [hne]
            rw [List.countP_cons]
            simp [hbeq, ihr]

/-- C8: after every rebuild, for every registry contents with unique job
ids, the fire-time index never holds two entries for the same job id, and
each job in the registry has exactly one entry when it is enabled and its
schedule is well-formed, and no entry when it is disabled or its schedule
is malformed. -/
theorem C8_index_one_entry_per_enabled_job (ev : String → Option Nat)
    (jobs : List CronJob) (hnd : (jobs.map CronJob.id).Nodup) :
    ((rebuild ev jobs).map Prod.snd).Nodup ∧
    ∀ j ∈ jobs,
      (rebuild ev jobs).countP (fun e => e.2 == j.id) =
        if j.enabled && (ev j.schedule).isSome then 1 else 0 :=
  ⟨hnd.sublist (rebuild_snd_sublist ev jobs),
    fun j hj => rebuild_countP ev jobs j hnd hj⟩

theorem C8_index_one_entry_per_enabled_job_witness :
    (sampleJobs.map CronJob.id).Nodup ∧
    (((rebuild sampleEv sampleJobs).map Prod.snd).Nodup ∧
      ∀ j ∈ sampleJobs,
        (rebuild sampleEv sampleJobs).countP (fun e => e.2 == j.id) =
          if j.enabled && (sampleEv j.schedule).isSome then 1 else 0) :=
  ⟨by decide, C8_index_one_entry_per_enabled_job sampleEv sampleJobs (by decide)⟩

/-- C9: jobs due at the same instant are dispatched in ascending job-id
order (ids compared lexicographically on their character sequence) — in
the dispatch order computed from any index, any two positions with
identical fire timestamps carry nondecreasing job ids; in particular with
jobs A and B both firing at t = 10 and id "A" < id "B", A is dispatched
before B. -/
theorem C9_ties_dispatch_in_id_order :
    (∀ (index : List (Nat × String)) (now i j : Nat)
        (hi : i < (dispatchOrder index now).length)
        (hj : j < (dispatchOrder index now).length),
        i < j →
        ((dispatchOrder index now).get ⟨i, hi⟩).1 =
          ((dispatchOrder index now).get ⟨j, hj⟩).1 →
        ((dispatchOrder index now).get ⟨i, hi⟩).2.data ≤
          ((dispatchOrder index now).get ⟨j, hj⟩).2.data) ∧
    dispatchOrder [(10, "B"), (10, "A")] 10 = [(10, "A"), (10, "B")] := by
  constructor
  · intro index now i j hi hj hij heq
    have hs : List.Sorted fireLe (dispatchOrder index now) :=
      List.sorted_insertionSort fireLe _
    have hrel := hs.rel_get_of_lt
      (show (⟨i, hi⟩ : Fin (dispatchOrder index now).length) < ⟨j, hj⟩ from hij)
    rcases hrel with hlt | ⟨-, hle⟩
    · rw [heq] at hlt
      exact absurd hlt (lt_irrefl _)
    · exact hle
  · decide

theorem C9_ties_dispatch_in_id_order_witness :
    ((dispatchOrder [(10, "B"), (10, "A")] 10).get ⟨0, by decide⟩).2.data ≤
      ((dispatchOrder [(10, "B"), (10, "A")] 10).get ⟨1, by decide⟩).2.data :=
  C9_ties_dispatch_in_id_order.1 [(10, "B"), (10, "A")] 10 0 1
    (by decide) (by decide) (by decide) (by decide)

end Treadmill.Cron
